import Mathlib

/-!
Shallow embedding of the endpoint health monitor in `src/main.py`.

The embedding covers the prober `check_health`, the domain-key derivation
`urlparse(url).netloc.split(":")[0]`, the cumulative `domain_stats`
aggregation, the availability percentage (Python `round`, ties to even),
the cycle pacing `max(0, 15 - elapsed)` and the per-cycle fan-out /
result-processing of `monitor_endpoints`.  The network is abstracted as an
oracle giving, for each issued request, either an HTTP status code or a
raised exception.
-/

namespace Monitor

/-- Probe classification: exactly the two literals of the source. -/
inductive Status
  | UP
  | DOWN
deriving DecidableEq

/-- Severity of a log event sent to the logging sink. -/
inductive LogLevel
  | info
  | warning
  | error
deriving DecidableEq

/-- One log line appended to the sink. -/
structure LogEvent where
  level : LogLevel
  msg : String
deriving DecidableEq

/-- An endpoint configuration dictionary.  Every field may be absent
(`none`), mirroring `dict.get` returning `None` for a missing key. -/
structure Endpoint where
  name : Option String := none
  url : Option String := none
  method : Option String := none
  headers : Option (List (String × String)) := none
  body : Option (List (String × String)) := none
deriving DecidableEq

/-- Exceptions the HTTP exchange can raise: `asyncio.TimeoutError`, or any
other exception carrying its message. -/
inductive PyExn
  | timeoutError
  | otherError (msg : String)
deriving DecidableEq

/-- Outcome of one attempted HTTP exchange (`session.request`): a response
with a status code, or a raised exception. -/
abbrev RequestOutcome := Except PyExn Nat

/-- What one `check_health` call produces: the returned `(name, status)`
pair, whether an HTTP request was actually issued, and the log lines the
call emitted. -/
structure ProbeTrace where
  result : String × Status
  attempted : Bool
  logs : List LogEvent
deriving DecidableEq

/-- The coroutine `check_health` of `src/main.py` (lines 68-111).  The `outcome`
argument is what `session.request` would yield for this endpoint.  The
Python coroutine could in principle propagate an exception, hence the
`Except` result type; every branch below is an `Except.ok` because the
source catches `TimeoutError` and then every other `Exception`. -/
def checkHealth (endpoint : Endpoint) (outcome : RequestOutcome) :
    Except PyExn ProbeTrace :=
  let name0 : String := endpoint.name.getD "unknown"
  let name : String := if name0 = "" then "unknown" else name0
  let warnLogs : List LogEvent :=
    if name0 = "" then
      [⟨LogLevel.warning, "Missing name to describe the HTTP endpoint"⟩]
    else []
  if endpoint.url = none ∨ endpoint.url = some "" then
    Except.ok
      { result := (name, Status.DOWN)
        attempted := false
        logs := warnLogs ++ [⟨LogLevel.error, "Missing URL for the HTTP endpoint"⟩] }
  else
    match outcome with
    | Except.ok code =>
        if 200 ≤ code ∧ code < 300 then
          Except.ok { result := (name, Status.UP), attempted := true, logs := warnLogs }
        else
          Except.ok { result := (name, Status.DOWN), attempted := true, logs := warnLogs }
    | Except.error PyExn.timeoutError =>
        Except.ok
          { result := (name, Status.DOWN)
            attempted := true
            logs := warnLogs ++ [⟨LogLevel.error, "Request timed out, endpoint is DOWN"⟩] }
    | Except.error (PyExn.otherError m) =>
        Except.ok
          { result := (name, Status.DOWN)
            attempted := true
            logs := warnLogs ++ [⟨LogLevel.error, "Request failed, endpoint is DOWN: " ++ m⟩] }

/-- The value `check_health` returns.  It never actually raises (the C3
theorem below), so the default is never reached. -/
def probe (endpoint : Endpoint) (outcome : RequestOutcome) : ProbeTrace :=
  (checkHealth endpoint outcome).toOption.getD
    { result := ("", Status.DOWN), attempted := false, logs := [] }

/-- Characters Python allows in a URL scheme: ASCII letters, digits and
`+`, `-`, `.`. -/
def schemeChar (c : Char) : Bool :=
  c.isAlphanum || c = '+' || c = '-' || c = '.'

/-- The scheme-stripping step of `urllib.parse.urlsplit`: when the part
before the first colon is a nonempty run of scheme characters starting
with an ASCII letter, drop it together with the colon; otherwise leave
the input unchanged. -/
def dropScheme (cs : List Char) : List Char :=
  if (cs.takeWhile (fun c => c != ':')).length ≠ 0 ∧
      (cs.takeWhile (fun c => c != ':')).length < cs.length ∧
      ((cs.takeWhile (fun c => c != ':')).headD ' ').isAlpha = true ∧
      (cs.takeWhile (fun c => c != ':')).all schemeChar = true then
    cs.drop ((cs.takeWhile (fun c => c != ':')).length + 1)
  else cs

/-- A character that terminates the network-location part of a URL. -/
def netlocEnd (c : Char) : Bool :=
  c = '/' || c = '?' || c = '#'

/-- The value `urllib.parse.urlsplit(url).netloc`: nonempty only when the remainder
after the scheme starts with `//`; it then runs until `/`, `?` or `#`. -/
def netlocOf (cs : List Char) : List Char :=
  if (dropScheme cs).take 2 = ['/', '/'] then
    ((dropScheme cs).drop 2).takeWhile (fun c => !netlocEnd c)
  else []

/-- The key `urlparse(url).netloc.split(":")[0]` (src/main.py lines 144-145): the
network location truncated at its first colon. -/
def domainKey (url : String) : String :=
  ⟨(netlocOf url.toList).takeWhile (fun c => c != ':')⟩

/-- The per-domain counters stored in `domain_stats`. -/
structure Stats where
  up : Nat
  total : Nat
deriving DecidableEq

/-- The aggregator `domain_stats`, a `defaultdict` mapping each domain to
its counters, every unseen domain reading as zero counters. -/
abbrev DomainStats := String → Stats

/-- The aggregator at loop start: every domain at `(up 0, total 0)`. -/
def emptyStats : DomainStats := fun _ => ⟨0, 0⟩

/-- The aggregation step (src/main.py lines 149-151): increment `total`
for the domain unconditionally, and `up` additionally iff the status is
UP; all other domains untouched. -/
def record (stats : DomainStats) (domain : String) (status : Status) :
    DomainStats :=
  fun k =>
    if k = domain then
      { up := (stats domain).up + (if status = Status.UP then 1 else 0)
        total := (stats domain).total + 1 }
    else stats k

/-- A whole sequence of aggregation steps, in order. -/
def recordAll (stats : DomainStats) (obs : List (String × Status)) :
    DomainStats :=
  obs.foldl (fun acc o => record acc o.1 o.2) stats

/-- Python 3 `round` restricted to rationals: nearest integer, ties going
to the even neighbour. -/
def pyRound (q : ℚ) : ℤ :=
  if q - (⌊q⌋ : ℚ) < 1/2 then ⌊q⌋
  else if (1 : ℚ)/2 < q - (⌊q⌋ : ℚ) then ⌊q⌋ + 1
  else if Even ⌊q⌋ then ⌊q⌋ else ⌊q⌋ + 1

/-- The value `round(100 * stats.up / stats.total)` (src/main.py line 159). -/
def availability (s : Stats) : ℤ :=
  pyRound ((100 * s.up : ℚ) / (s.total : ℚ))

/-- Elapsed wall-clock time of one cycle (src/main.py line 165). -/
def timeElapsed (cycleStart now : ℚ) : ℚ := now - cycleStart

/-- The value `sleep_time = max(0, 15 - time_elapsed)` (src/main.py line 168). -/
def sleepTime (cycleStart now : ℚ) : ℚ :=
  max 0 (15 - timeElapsed cycleStart now)

/-- One cycle's fan-out and join: task `i` is
`check_health(config[i], session)` and `asyncio.gather` returns the
results in the order the tasks were supplied, independent of completion
order.  The oracle gives the network outcome of the task at each
position. -/
def gatherResults (config : List Endpoint) (oracle : Nat → RequestOutcome) :
    List (String × Status) :=
  config.enum.map fun ie => (probe ie.2 (oracle ie.1)).result

/-- The body of the result-processing loop (src/main.py lines 141-151):
when the url is missing or empty nothing happens; otherwise derive the
domain key, add it to this cycle's set of domains and record the
observation. -/
def processOne (acc : DomainStats × Finset String) (e : Endpoint)
    (r : String × Status) : DomainStats × Finset String :=
  let url := e.url.getD ""
  if url = "" then acc
  else (record acc.1 (domainKey url) r.2, insert (domainKey url) acc.2)

/-- The loop `for endpoint, (_, status) in zip(config, results)` with the
cycle's domain set starting empty (src/main.py lines 138-151). -/
def processResults (config : List Endpoint) (results : List (String × Status))
    (stats : DomainStats) : DomainStats × Finset String :=
  (config.zip results).foldl (fun acc p => processOne acc p.1 p.2) (stats, ∅)

/-- A concrete two-endpoint configuration used as test fixture. -/
def sampleConfig : List Endpoint :=
  [{ name := some "svc-a", url := some "http://host1/ping" },
   { name := some "svc-b", url := some "http://host1/health" }]

/-- A concrete network behaviour for the fixture: the first task gets a
200 response, every other task times out. -/
def sampleOracle : Nat → RequestOutcome :=
  fun i => if i = 0 then Except.ok 200 else Except.error PyExn.timeoutError

/-- An endpoint whose url is present and nonempty. -/
def hasUrl (e : Endpoint) : Prop := ¬(e.url = none ∨ e.url = some "")

instance (e : Endpoint) : Decidable (hasUrl e) :=
  inferInstanceAs (Decidable ¬(e.url = none ∨ e.url = some ""))

lemma checkHealth_eq_ok (e : Endpoint) (o : RequestOutcome) :
    checkHealth e o = Except.ok (probe e o) := by
  by_cases hu : e.url = none ∨ e.url = some ""
  · unfold probe checkHealth
    rw [if_pos hu]
    simp [Except.toOption]
  · unfold probe checkHealth
    rw [if_neg hu]
    cases o with
    | ok code =>
        by_cases hc : 200 ≤ code ∧ code < 300 <;> simp [hc, Except.toOption]
    | error exn => cases exn <;> simp [Except.toOption]

lemma probe_of_hasUrl (e : Endpoint) (o : RequestOutcome) (h : hasUrl e) :
    probe e o =
      let name0 : String := e.name.getD "unknown"
      let name : String := if name0 = "" then "unknown" else name0
      let warnLogs : List LogEvent :=
        if name0 = "" then
          [⟨LogLevel.warning, "Missing name to describe the HTTP endpoint"⟩]
        else []
      match o with
      | Except.ok code =>
          if 200 ≤ code ∧ code < 300 then
            { result := (name, Status.UP), attempted := true, logs := warnLogs }
          else
            { result := (name, Status.DOWN), attempted := true, logs := warnLogs }
      | Except.error PyExn.timeoutError =>
          { result := (name, Status.DOWN)
            attempted := true
            logs := warnLogs ++ [⟨LogLevel.error, "Request timed out, endpoint is DOWN"⟩] }
      | Except.error (PyExn.otherError m) =>
          { result := (name, Status.DOWN)
            attempted := true
            logs := warnLogs ++ [⟨LogLevel.error, "Request failed, endpoint is DOWN: " ++ m⟩] } := by
  unfold probe checkHealth
  rw [if_neg h]
  cases o with
  | ok code =>
      by_cases hc : 200 ≤ code ∧ code < 300 <;> simp [hc, Except.toOption]
  | error exn => cases exn <;> simp [Except.toOption]

lemma probe_of_noUrl (e : Endpoint) (o : RequestOutcome)
    (h : e.url = none ∨ e.url = some "") :
    probe e o =
      let name0 : String := e.name.getD "unknown"
      let name : String := if name0 = "" then "unknown" else name0
      let warnLogs : List LogEvent :=
        if name0 = "" then
          [⟨LogLevel.warning, "Missing name to describe the HTTP endpoint"⟩]
        else []
      { result := (name, Status.DOWN)
        attempted := false
        logs := warnLogs ++ [⟨LogLevel.error, "Missing URL for the HTTP endpoint"⟩] } := by
  unfold probe checkHealth
  rw [if_pos h]
  simp [Except.toOption]

/-- C1: for an endpoint whose probe obtains an HTTP response with status
code `c`, `check_health` classifies UP iff `200 <= c < 300` and DOWN
otherwise. -/
theorem checkHealth_classifies_by_2xx (e : Endpoint) (c : Nat)
    (h : hasUrl e) :
    ((probe e (Except.ok c)).result.2 = Status.UP ↔ 200 ≤ c ∧ c < 300) ∧
    ((probe e (Except.ok c)).result.2 = Status.DOWN ↔ ¬(200 ≤ c ∧ c < 300)) := by
  rw [probe_of_hasUrl e (Except.ok c) h]
  by_cases hc : 200 ≤ c ∧ c < 300 <;> simp [hc]

/-- C1 witness: at the boundary status codes 199, 200, 299, 300 of a
concrete endpoint, the classification is DOWN, UP, UP, DOWN. -/
theorem checkHealth_classifies_by_2xx_witness :
    (probe { url := some "http://a" } (Except.ok 199)).result.2 = Status.DOWN ∧
    (probe { url := some "http://a" } (Except.ok 200)).result.2 = Status.UP ∧
    (probe { url := some "http://a" } (Except.ok 299)).result.2 = Status.UP ∧
    (probe { url := some "http://a" } (Except.ok 300)).result.2 = Status.DOWN :=
  ⟨(checkHealth_classifies_by_2xx { url := some "http://a" } 199 (by decide)).2.mpr (by decide),
   (checkHealth_classifies_by_2xx { url := some "http://a" } 200 (by decide)).1.mpr (by decide),
   (checkHealth_classifies_by_2xx { url := some "http://a" } 299 (by decide)).1.mpr (by decide),
   (checkHealth_classifies_by_2xx { url := some "http://a" } 300 (by decide)).2.mpr (by decide)⟩

/-- C2: for an endpoint whose url is absent or empty, `check_health`
returns DOWN, issues no HTTP request, and logs an error diagnostic. -/
theorem checkHealth_missing_url (e : Endpoint) (o : RequestOutcome)
    (h : e.url = none ∨ e.url = some "") :
    (probe e o).result.2 = Status.DOWN ∧
    (probe e o).attempted = false ∧
    ∃ ev ∈ (probe e o).logs, ev.level = LogLevel.error := by
  rw [probe_of_noUrl e o h]
  refine ⟨rfl, rfl, ⟨LogLevel.error, "Missing URL for the HTTP endpoint"⟩, ?_, rfl⟩
  simp

/-- C2 witness: a concrete endpoint with an empty url is DOWN with no
request attempted and an error log line. -/
theorem checkHealth_missing_url_witness :
    (probe { name := some "svc", url := some "" } (Except.ok 200)).result.2 = Status.DOWN ∧
    (probe { name := some "svc", url := some "" } (Except.ok 200)).attempted = false ∧
    ∃ ev ∈ (probe { name := some "svc", url := some "" } (Except.ok 200)).logs,
      ev.level = LogLevel.error :=
  checkHealth_missing_url { name := some "svc", url := some "" } (Except.ok 200)
    (Or.inr rfl)

/-- C3: for every endpoint and every outcome of the underlying request,
`check_health` returns exactly one value and never propagates an
exception, and every failure mode (raised exception or missing url)
yields the DOWN classification. -/
theorem checkHealth_never_raises (e : Endpoint) (o : RequestOutcome) :
    (∃ t, checkHealth e o = Except.ok t) ∧
    (∀ exn, o = Except.error exn → (probe e o).result.2 = Status.DOWN) ∧
    ((e.url = none ∨ e.url = some "") → (probe e o).result.2 = Status.DOWN) := by
  refine ⟨⟨probe e o, checkHealth_eq_ok e o⟩, ?_, ?_⟩
  · intro exn ho
    subst ho
    by_cases hu : e.url = none ∨ e.url = some ""
    · rw [probe_of_noUrl e _ hu]
    · rw [probe_of_hasUrl e _ hu]
      cases exn <;> rfl
  · intro hu
    rw [probe_of_noUrl e o hu]

/-- C3 witness: a concrete endpoint whose request raises a transport
error still returns a value, classified DOWN. -/
theorem checkHealth_never_raises_witness :
    (∃ t, checkHealth { url := some "http://a" }
        (Except.error (PyExn.otherError "connection refused")) = Except.ok t) ∧
    (probe { url := some "http://a" }
        (Except.error (PyExn.otherError "connection refused"))).result.2 = Status.DOWN :=
  ⟨(checkHealth_never_raises { url := some "http://a" }
      (Except.error (PyExn.otherError "connection refused"))).1,
   (checkHealth_never_raises { url := some "http://a" }
      (Except.error (PyExn.otherError "connection refused"))).2.1
     (PyExn.otherError "connection refused") rfl⟩

/-- C7: the sleep computed at the end of a cycle is
`max(0, 15 - elapsed)`; when elapsed is at least 15 it is exactly 0, when
less it is the remainder, and it is never negative. -/
theorem sleepTime_paces_cycle (cycleStart now : ℚ) :
    sleepTime cycleStart now = max 0 (15 - (now - cycleStart)) ∧
    (15 ≤ now - cycleStart → sleepTime cycleStart now = 0) ∧
    (now - cycleStart < 15 →
      sleepTime cycleStart now = 15 - (now - cycleStart)) ∧
    0 ≤ sleepTime cycleStart now := by
  refine ⟨rfl, ?_, ?_, le_max_left _ _⟩
  · intro h
    have h15 : 15 - (now - cycleStart) ≤ 0 := by linarith
    simpa [sleepTime, timeElapsed] using max_eq_left h15
  · intro h
    have h15 : 0 ≤ 15 - (now - cycleStart) := by linarith
    simpa [sleepTime, timeElapsed] using max_eq_right h15

lemma record_preserves_le (stats : DomainStats)
    (h : ∀ k, (stats k).up ≤ (stats k).total) (d : String) (s : Status) :
    ∀ k, ((record stats d s) k).up ≤ ((record stats d s) k).total := by
  intro k
  unfold record
  by_cases hk : k = d
  · rw [if_pos hk]
    have := h d
    cases s <;> simp <;> omega
  · rw [if_neg hk]
    exact h k

lemma record_mono (stats : DomainStats) (d : String) (s : Status) (k : String) :
    (stats k).up ≤ ((record stats d s) k).up ∧
    (stats k).total ≤ ((record stats d s) k).total := by
  unfold record
  by_cases hk : k = d
  · subst hk
    rw [if_pos rfl]
    cases s <;> simp
  · rw [if_neg hk]
    exact ⟨le_refl _, le_refl _⟩

lemma recordAll_preserves_le (obs : List (String × Status)) (stats : DomainStats)
    (h : ∀ k, (stats k).up ≤ (stats k).total) :
    ∀ k, ((recordAll stats obs) k).up ≤ ((recordAll stats obs) k).total := by
  induction obs generalizing stats with
  | nil => exact h
  | cons o rest ih =>
      exact ih (record stats o.1 o.2) (record_preserves_le stats h o.1 o.2)

lemma recordAll_mono (obs : List (String × Status)) (stats : DomainStats)
    (k : String) :
    (stats k).up ≤ ((recordAll stats obs) k).up ∧
    (stats k).total ≤ ((recordAll stats obs) k).total := by
  induction obs generalizing stats with
  | nil => exact ⟨le_refl _, le_refl _⟩
  | cons o rest ih =>
      have h1 := record_mono stats o.1 o.2 k
      have h2 := ih (record stats o.1 o.2)
      exact ⟨le_trans h1.1 h2.1, le_trans h1.2 h2.2⟩

/-- C4: one `record` step increments the domain's total by exactly 1 and
its up count by exactly 1 iff the status is UP, touching no other domain;
counters start at 0, `up <= total` holds after every sequence of steps
from the empty aggregator, and both counters are monotonically
non-decreasing under any further sequence of steps. -/
theorem record_counter_invariants (stats : DomainStats) (domain : String)
    (status : Status) :
    ((record stats domain status) domain).total = (stats domain).total + 1 ∧
    ((record stats domain status) domain).up
      = (stats domain).up + (if status = Status.UP then 1 else 0) ∧
    (∀ k, k ≠ domain → record stats domain status k = stats k) ∧
    emptyStats domain = ⟨0, 0⟩ ∧
    (∀ obs k, ((recordAll emptyStats obs) k).up
        ≤ ((recordAll emptyStats obs) k).total) ∧
    (∀ obs k, (stats k).up ≤ ((recordAll stats obs) k).up ∧
        (stats k).total ≤ ((recordAll stats obs) k).total) := by
  refine ⟨?_, ?_, ?_, rfl, ?_, ?_⟩
  · unfold record
    rw [if_pos rfl]
  · unfold record
    rw [if_pos rfl]
  · intro k hk
    unfold record
    rw [if_neg hk]
  · intro obs k
    exact recordAll_preserves_le obs emptyStats (fun _ => le_refl 0) k
  · intro obs k
    exact recordAll_mono obs stats k

/-- C4 witness: concrete record steps on the empty aggregator. -/
theorem record_counter_invariants_witness :
    ((record emptyStats "a" Status.UP) "a").total = (emptyStats "a").total + 1 ∧
    ((record emptyStats "a" Status.UP) "a").up
      = (emptyStats "a").up + (if Status.UP = Status.UP then 1 else 0) ∧
    record emptyStats "a" Status.UP "b" = emptyStats "b" ∧
    ((recordAll emptyStats [("a", Status.UP), ("a", Status.DOWN)]) "a").up
      ≤ ((recordAll emptyStats [("a", Status.UP), ("a", Status.DOWN)]) "a").total :=
  ⟨(record_counter_invariants emptyStats "a" Status.UP).1,
   (record_counter_invariants emptyStats "a" Status.UP).2.1,
   (record_counter_invariants emptyStats "a" Status.UP).2.2.1 "b" (by decide),
   (record_counter_invariants emptyStats "a" Status.UP).2.2.2.2.1
     [("a", Status.UP), ("a", Status.DOWN)] "a"⟩

lemma pyRound_close (q : ℚ) : |(pyRound q : ℚ) - q| ≤ 1/2 := by
  have h0 : (⌊q⌋ : ℚ) ≤ q := Int.floor_le q
  have h1 : q < ⌊q⌋ + 1 := Int.lt_floor_add_one q
  unfold pyRound
  split_ifs with ha hb hc <;> rw [abs_le] <;> constructor <;> push_cast <;> linarith

/-- C6: the availability percentage is `round(100 * up / total)` with
Python rounding (nearest integer, ties to even), hence within 1/2 of the
exact percentage; on `up=2,total=3` it is 67 and on `up=1,total=3` it
is 33. -/
theorem availability_rounds_percentage (up total : Nat) (h : 0 < total) :
    availability ⟨up, total⟩ = pyRound ((100 * up : ℚ) / (total : ℚ)) ∧
    |(availability ⟨up, total⟩ : ℚ) - (100 * up : ℚ) / (total : ℚ)| ≤ 1/2 ∧
    availability ⟨2, 3⟩ = 67 ∧
    availability ⟨1, 3⟩ = 33 := by
  refine ⟨rfl, pyRound_close _, ?_, ?_⟩ <;> norm_num [availability, pyRound]

/-- C6 witness: the two concrete availability values of the claim. -/
theorem availability_rounds_percentage_witness :
    (0 : Nat) < 3 ∧ availability ⟨2, 3⟩ = 67 ∧ availability ⟨1, 3⟩ = 33 :=
  ⟨by decide,
   (availability_rounds_percentage 2 3 (by decide)).2.2.1,
   (availability_rounds_percentage 1 3 (by decide)).2.2.2⟩

/-- C9 counterexample: an endpoint whose name field is absent gets the
sentinel "unknown" substituted, but no warning (indeed no log line at
all) is emitted, because `endpoint.get("name", "unknown")` already
returns a non-falsy default before the emptiness check runs. -/
theorem checkHealth_absent_name_no_warning :
    (probe { url := some "http://a" } (Except.ok 200)).result.1 = "unknown" ∧
    (probe { url := some "http://a" } (Except.ok 200)).logs = [] :=
  ⟨rfl, rfl⟩

/-- C9 amended: an absent name is substituted with "unknown" silently
(no warning is logged), while a present-but-empty name is substituted
with "unknown" and a warning is logged; in both cases the probe is still
attempted when a nonempty URL is present. -/
theorem checkHealth_name_default (e : Endpoint) (o : RequestOutcome) (u : String)
    (hn : e.name = none ∨ e.name = some "") :
    (probe e o).result.1 = "unknown" ∧
    (e.name = some "" → ∃ ev ∈ (probe e o).logs, ev.level = LogLevel.warning) ∧
    (e.name = none → ∀ ev ∈ (probe e o).logs, ev.level ≠ LogLevel.warning) ∧
    (e.url = some u → u ≠ "" → (probe e o).attempted = true) := by
  by_cases hu : e.url = none ∨ e.url = some ""
  · rw [probe_of_noUrl e o hu]
    rcases hn with hn | hn
    · refine ⟨by simp [hn], ?_, ?_, ?_⟩
      · intro habs
        rw [hn] at habs
        exact absurd habs (by simp)
      · intro _ ev hev
        simp [hn] at hev
        simp [hev]
      · intro h1 h2
        rcases hu with hu | hu
        · rw [h1] at hu; exact absurd hu (by simp)
        · rw [h1] at hu
          exact absurd (Option.some_injective _ hu) h2
    · refine ⟨by simp [hn], ?_, ?_, ?_⟩
      · intro _
        refine ⟨⟨LogLevel.warning, "Missing name to describe the HTTP endpoint"⟩, ?_, rfl⟩
        simp [hn]
      · intro habs
        rw [hn] at habs
        exact absurd habs (by simp)
      · intro h1 h2
        rcases hu with hu | hu
        · rw [h1] at hu; exact absurd hu (by simp)
        · rw [h1] at hu
          exact absurd (Option.some_injective _ hu) h2
  · rw [probe_of_hasUrl e o hu]
    rcases hn with hn | hn
    · refine ⟨?_, ?_, ?_, ?_⟩
      · cases o with
        | ok code => by_cases hc : 200 ≤ code ∧ code < 300 <;> simp [hn, hc]
        | error exn => cases exn <;> simp [hn]
      · intro habs
        rw [hn] at habs
        exact absurd habs (by simp)
      · intro _ ev hev
        cases o with
        | ok code =>
            by_cases hc : 200 ≤ code ∧ code < 300 <;>
              simp [hn, hc] at hev
        | error exn =>
            cases exn <;> simp [hn] at hev <;> simp [hev]
      · intro _ _
        cases o with
        | ok code => by_cases hc : 200 ≤ code ∧ code < 300 <;> simp [hc]
        | error exn => cases exn <;> rfl
    · refine ⟨?_, ?_, ?_, ?_⟩
      · cases o with
        | ok code => by_cases hc : 200 ≤ code ∧ code < 300 <;> simp [hn, hc]
        | error exn => cases exn <;> simp [hn]
      · intro _
        refine ⟨⟨LogLevel.warning, "Missing name to describe the HTTP endpoint"⟩, ?_, rfl⟩
        cases o with
        | ok code => by_cases hc : 200 ≤ code ∧ code < 300 <;> simp [hn, hc]
        | error exn => cases exn <;> simp [hn]
      · intro habs
        rw [hn] at habs
        exact absurd habs (by simp)
      · intro _ _
        cases o with
        | ok code => by_cases hc : 200 ≤ code ∧ code < 300 <;> simp [hc]
        | error exn => cases exn <;> rfl

/-- C9 amended witness: a concrete endpoint with an empty name warns and
still probes; compare the counterexample for the absent-name case. -/
theorem checkHealth_name_default_witness :
    (probe { name := some "", url := some "http://a" } (Except.ok 200)).result.1
      = "unknown" ∧
    (∃ ev ∈ (probe { name := some "", url := some "http://a" }
        (Except.ok 200)).logs, ev.level = LogLevel.warning) ∧
    (probe { name := some "", url := some "http://a" }
        (Except.ok 200)).attempted = true :=
  ⟨(checkHealth_name_default { name := some "", url := some "http://a" }
      (Except.ok 200) "http://a" (Or.inr rfl)).1,
   (checkHealth_name_default { name := some "", url := some "http://a" }
      (Except.ok 200) "http://a" (Or.inr rfl)).2.1 rfl,
   (checkHealth_name_default { name := some "", url := some "http://a" }
      (Except.ok 200) "http://a" (Or.inr rfl)).2.2.2 rfl (by decide)⟩

/-- C10: an endpoint with an absent or empty url leaves both the
aggregator and the cycle's domain set untouched, so it is invisible in
all cumulative statistics. -/
theorem processOne_skips_missing_url (stats : DomainStats) (doms : Finset String)
    (e : Endpoint) (r : String × Status)
    (h : e.url = none ∨ e.url = some "") :
    processOne (stats, doms) e r = (stats, doms) ∧
    ∀ config results s0,
      processResults (e :: config) (r :: results) s0
        = processResults config results s0 := by
  have hurl : e.url.getD "" = "" := by rcases h with h | h <;> simp [h]
  have step : ∀ (st : DomainStats) (ds : Finset String),
      processOne (st, ds) e r = (st, ds) := by
    intro st ds
    unfold processOne
    rw [hurl]
    simp
  refine ⟨step stats doms, ?_⟩
  intro config results s0
  unfold processResults
  rw [List.zip_cons_cons, List.foldl_cons]
  rw [step s0 ∅]

/-- C10 witness: a concrete url-less endpoint is absorbed without any
change to the aggregator or to the result-processing outcome. -/
theorem processOne_skips_missing_url_witness :
    processOne (emptyStats, ∅) { name := some "svc" } ("svc", Status.UP)
      = (emptyStats, ∅) ∧
    processResults [{ name := some "svc" }] [("svc", Status.UP)] emptyStats
      = processResults [] [] emptyStats :=
  ⟨(processOne_skips_missing_url emptyStats ∅ { name := some "svc" }
      ("svc", Status.UP) (Or.inl rfl)).1,
   (processOne_skips_missing_url emptyStats ∅ { name := some "svc" }
      ("svc", Status.UP) (Or.inl rfl)).2 [] [] emptyStats⟩

/-- C7 witness: a cycle that took 3 seconds sleeps 12; one that took 20
seconds sleeps 0. -/
theorem sleepTime_paces_cycle_witness :
    sleepTime 100 103 = 12 ∧ sleepTime 100 120 = 0 := by
  constructor
  · have h := (sleepTime_paces_cycle 100 103).2.2.1 (by norm_num)
    rw [h]; norm_num
  · exact (sleepTime_paces_cycle 100 120).2.1 (by norm_num)

lemma takeWhile_append_of_all {α : Type} (p : α → Bool) (l r : List α)
    (h : ∀ c ∈ l, p c = true) :
    (l ++ r).takeWhile p = l ++ r.takeWhile p := by
  induction l with
  | nil => simp
  | cons a as ih =>
      have ha : p a = true := h a (List.mem_cons_self a as)
      have hs : ∀ c ∈ as, p c = true := fun c hc => h c (List.mem_cons_of_mem a hc)
      simp [List.takeWhile_cons, ha, ih hs]

lemma dropScheme_of_scheme (scheme rest : List Char)
    (h0 : scheme ≠ [])
    (h1 : (scheme.headD ' ').isAlpha = true)
    (h2 : scheme.all schemeChar = true) :
    dropScheme (scheme ++ ':' :: rest) = rest := by
  have hcolon : ∀ c ∈ scheme, (c != ':') = true := by
    intro c hc
    have hsc := List.all_eq_true.mp h2 c hc
    rw [bne_iff_ne]
    intro hceq
    subst hceq
    exact absurd hsc (by decide)
  have hpre : (scheme ++ ':' :: rest).takeWhile (fun c => c != ':') = scheme := by
    rw [takeWhile_append_of_all _ scheme _ hcolon]
    simp [List.takeWhile_cons]
  unfold dropScheme
  rw [hpre]
  have hcond : scheme.length ≠ 0 ∧
      scheme.length < (scheme ++ ':' :: rest).length ∧
      (scheme.headD ' ').isAlpha = true ∧ scheme.all schemeChar = true := by
    refine ⟨?_, ?_, h1, h2⟩
    · intro hlen
      exact h0 (List.length_eq_zero.mp hlen)
    · simp [List.length_append]
  rw [if_pos hcond]
  have hsplit : scheme ++ ':' :: rest = (scheme ++ [':']) ++ rest := by simp
  have hlen : scheme.length + 1 = (scheme ++ [':']).length := by simp
  rw [hsplit, hlen, List.drop_left]

/-- C5: for a URL of the shape `scheme://host:port/path...` or
`scheme://host/path...`, the aggregation key is exactly the hostname:
the network location with the port suffix stripped.  Port and path are
arbitrary, so two URLs sharing a hostname but differing in path or port
produce the same domain bucket. -/
theorem domainKey_is_hostname (scheme host port path : List Char)
    (h0 : scheme ≠ [])
    (h1 : (scheme.headD ' ').isAlpha = true)
    (h2 : scheme.all schemeChar = true)
    (hh : ∀ c ∈ host, (c != ':') = true ∧ netlocEnd c = false)
    (hp : path.headD '/' = '/' ∨ path.headD '/' = '?' ∨ path.headD '/' = '#') :
    domainKey ⟨scheme ++ ':' :: '/' :: '/' :: (host ++ (':' :: (port ++ path)))⟩
      = ⟨host⟩ ∧
    domainKey ⟨scheme ++ ':' :: '/' :: '/' :: (host ++ path)⟩ = ⟨host⟩ := by
  have hhostNe : ∀ c ∈ host, (!netlocEnd c) = true := by
    intro c hc
    rw [(hh c hc).2]
    rfl
  have hhostC : ∀ c ∈ host, (c != ':') = true :=
    fun c hc => (hh c hc).1
  have hpath : path.takeWhile (fun c => !netlocEnd c) = [] := by
    cases path with
    | nil => rfl
    | cons c cs =>
        simp only [List.headD] at hp
        rcases hp with h | h | h <;> subst h <;> rfl
  constructor
  · unfold domainKey netlocOf
    rw [show (⟨scheme ++ ':' :: '/' :: '/' :: (host ++ (':' :: (port ++ path)))⟩ :
        String).toList
        = scheme ++ ':' :: '/' :: '/' :: (host ++ (':' :: (port ++ path)))
      from rfl]
    rw [dropScheme_of_scheme scheme _ h0 h1 h2]
    rw [if_pos (by rfl)]
    rw [show ('/' :: '/' :: (host ++ (':' :: (port ++ path)))).drop 2
        = host ++ (':' :: (port ++ path)) from rfl]
    rw [takeWhile_append_of_all _ host _ hhostNe]
    rw [show (':' :: (port ++ path)).takeWhile (fun c => !netlocEnd c)
        = ':' :: ((port ++ path).takeWhile (fun c => !netlocEnd c)) from rfl]
    rw [takeWhile_append_of_all _ host _ hhostC]
    simp [List.takeWhile_cons]
  · unfold domainKey netlocOf
    rw [show (⟨scheme ++ ':' :: '/' :: '/' :: (host ++ path)⟩ :
        String).toList = scheme ++ ':' :: '/' :: '/' :: (host ++ path) from rfl]
    rw [dropScheme_of_scheme scheme _ h0 h1 h2]
    rw [if_pos (by rfl)]
    rw [show ('/' :: '/' :: (host ++ path)).drop 2 = host ++ path from rfl]
    rw [takeWhile_append_of_all _ host _ hhostNe, hpath]
    rw [takeWhile_append_of_all _ host _ hhostC]
    simp

/-- C5 witness: `http://host1:8080/ping` and `http://host1/health` both
aggregate under the key `host1`. -/
theorem domainKey_is_hostname_witness :
    domainKey ⟨['h', 't', 't', 'p'] ++ ':' :: '/' :: '/' ::
        (['h', 'o', 's', 't', '1'] ++ (':' :: (['8', '0', '8', '0'] ++
          ['/', 'p', 'i', 'n', 'g'])))⟩ = ⟨['h', 'o', 's', 't', '1']⟩ ∧
    domainKey ⟨['h', 't', 't', 'p'] ++ ':' :: '/' :: '/' ::
        (['h', 'o', 's', 't', '1'] ++ ['/', 'h', 'e', 'a', 'l', 't', 'h'])⟩
      = ⟨['h', 'o', 's', 't', '1']⟩ :=
  ⟨(domainKey_is_hostname ['h', 't', 't', 'p'] ['h', 'o', 's', 't', '1']
      ['8', '0', '8', '0'] ['/', 'p', 'i', 'n', 'g'] (by decide) (by decide)
      (by decide) (by decide) (by decide)).1,
   (domainKey_is_hostname ['h', 't', 't', 'p'] ['h', 'o', 's', 't', '1']
      ['8', '0', '8', '0'] ['/', 'h', 'e', 'a', 'l', 't', 'h'] (by decide)
      (by decide) (by decide) (by decide) (by decide)).2⟩

lemma gatherResults_length (config : List Endpoint)
    (oracle : Nat → RequestOutcome) :
    (gatherResults config oracle).length = config.length := by
  simp [gatherResults]

/-- C8: the collected result list of a cycle has the same length as the
endpoint list, the result at each position is the probe of the endpoint
at that position, and zipping the configuration with the results pairs
every endpoint with its own probe result, in configuration order. -/
theorem gather_preserves_order (config : List Endpoint)
    (oracle : Nat → RequestOutcome) :
    (gatherResults config oracle).length = config.length ∧
    (∀ i (hi : i < config.length),
      (gatherResults config oracle).get
          ⟨i, by rw [gatherResults_length]; exact hi⟩
        = (probe (config.get ⟨i, hi⟩) (oracle i)).result) ∧
    (∀ i (hi : i < config.length),
      (config.zip (gatherResults config oracle)).get
          ⟨i, by simp [List.length_zip, gatherResults_length]; exact hi⟩
        = (config.get ⟨i, hi⟩,
            (probe (config.get ⟨i, hi⟩) (oracle i)).result)) := by
  refine ⟨gatherResults_length config oracle, ?_, ?_⟩
  · intro i hi
    simp [gatherResults, List.get_eq_getElem, List.getElem_map, List.getElem_enum]
  · intro i hi
    simp [List.get_eq_getElem, List.getElem_zip, gatherResults,
      List.getElem_map, List.getElem_enum]

/-- C8 witness: on the two-endpoint fixture, position 0 carries the probe
of the first endpoint (UP on its 200) and position 1 the probe of the
second (DOWN on its timeout). -/
theorem gather_preserves_order_witness :
    (gatherResults sampleConfig sampleOracle).length = sampleConfig.length ∧
    (gatherResults sampleConfig sampleOracle).get ⟨0, by decide⟩
      = (probe (sampleConfig.get ⟨0, by decide⟩) (sampleOracle 0)).result ∧
    (sampleConfig.zip (gatherResults sampleConfig sampleOracle)).get ⟨1, by decide⟩
      = (sampleConfig.get ⟨1, by decide⟩,
          (probe (sampleConfig.get ⟨1, by decide⟩) (sampleOracle 1)).result) :=
  ⟨(gather_preserves_order sampleConfig sampleOracle).1,
   (gather_preserves_order sampleConfig sampleOracle).2.1 0 (by decide),
   (gather_preserves_order sampleConfig sampleOracle).2.2 1 (by decide)⟩

end Monitor
